import Mathlib

/-!
Verification of the chunked-streaming response reassembler in
src/rust-gemini-llm-client/src/lib.rs (function generate_content).

The development shallowly embeds the Rust code: bytes are Nat values,
byte chunks are lists of bytes, strings are Lean strings, the JSON
parsing performed by serde_json::from_str is embedded as an executable
recursive-descent parser together with the serde-derived decoders for
the GenerateContentResponse structure, and the network is an explicit
function from the constructed request to an HTTP response.
-/

namespace GeminiClient

/-- Whitespace predicate matching the Unicode White_Space property used by
Rust char::is_whitespace (and hence by str::trim). -/
def rustIsWhitespace (c : Char) : Bool :=
  let n := c.toNat
  n == 0x09 || n == 0x0A || n == 0x0B || n == 0x0C || n == 0x0D || n == 0x20 ||
  n == 0x85 || n == 0xA0 || n == 0x1680 ||
  (0x2000 ≤ n && n ≤ 0x200A) ||
  n == 0x2028 || n == 0x2029 || n == 0x202F || n == 0x205F || n == 0x3000

/-- Drop leading whitespace, as Rust str::trim_start. -/
def trimStartList (l : List Char) : List Char :=
  l.dropWhile rustIsWhitespace

/-- Drop trailing whitespace, as Rust str::trim_end. -/
def trimEndList (l : List Char) : List Char :=
  (l.reverse.dropWhile rustIsWhitespace).reverse

/-- Embedding of Rust str::trim. -/
def rustTrim (s : String) : String :=
  String.mk (trimEndList (trimStartList s.toList))

/-- Embedding of Rust str::trim_start_matches with a single-char pattern:
removes ALL leading occurrences of the character. -/
def trimStartMatches (c : Char) (s : String) : String :=
  String.mk (s.toList.dropWhile (· == c))

/-- Embedding of Rust str::trim_end_matches with a single-char pattern:
removes ALL trailing occurrences of the character. -/
def trimEndMatches (c : Char) (s : String) : String :=
  String.mk ((s.toList.reverse.dropWhile (· == c)).reverse)

/-- Embedding of the chunk-cleaning pipeline of generate_content
(lib.rs lines 120-127): text.trim().trim_start_matches('[')
.trim_start_matches(',').trim_end_matches(']').trim_end_matches(',')
.trim().to_string(). -/
def cleanText (s : String) : String :=
  rustTrim (trimEndMatches ','
    (trimEndMatches ']'
      (trimStartMatches ','
        (trimStartMatches '[' (rustTrim s)))))

/-- Modelled from the spec words of claim C2 (for the refinement
comparison): trim, strip AT MOST ONE leading bracket, at most one
leading comma, at most one trailing bracket, at most one trailing
comma, trim again. -/
def stripOnePrefix (c : Char) (l : List Char) : List Char :=
  match l with
  | [] => []
  | x :: xs => if x == c then xs else x :: xs

/-- Companion of stripOnePrefix acting on the end of the list. -/
def stripOneSuffix (c : Char) (l : List Char) : List Char :=
  (stripOnePrefix c l.reverse).reverse

/-- Modelled from the spec words of claim C2: the whole cleaning step with
each strip removing at most one character. -/
def specCleanText (s : String) : String :=
  String.mk (trimEndList (trimStartList
    (stripOneSuffix ','
      (stripOneSuffix ']'
        (stripOnePrefix ','
          (stripOnePrefix '[' (trimEndList (trimStartList s.toList))))))))

/-- Continuation-byte test for UTF-8 decoding: 0x80 ≤ b ≤ 0xBF. -/
def isCont (b : Nat) : Bool :=
  0x80 ≤ b && b ≤ 0xBF

/-- Strict UTF-8 decoder over a byte list, mirroring the validation done
by Rust String::from_utf8: rejects overlong encodings, surrogate code
points and values above 0x10FFFF. Returns the decoded characters or
none when the bytes are not valid UTF-8. -/
def utf8DecodeList : List Nat → Option (List Char)
  | [] => some []
  | b :: rest =>
    if b ≤ 0x7F then
      (utf8DecodeList rest).map (Char.ofNat b :: ·)
    else if 0xC2 ≤ b && b ≤ 0xDF then
      match rest with
      | c1 :: rest1 =>
        if isCont c1 then
          (utf8DecodeList rest1).map (Char.ofNat ((b - 0xC0) * 0x40 + (c1 - 0x80)) :: ·)
        else none
      | _ => none
    else if 0xE0 ≤ b && b ≤ 0xEF then
      match rest with
      | c1 :: c2 :: rest2 =>
        let lo1 : Nat := if b == 0xE0 then 0xA0 else 0x80
        let hi1 : Nat := if b == 0xED then 0x9F else 0xBF
        if lo1 ≤ c1 && c1 ≤ hi1 && isCont c2 then
          (utf8DecodeList rest2).map
            (Char.ofNat ((b - 0xE0) * 0x1000 + (c1 - 0x80) * 0x40 + (c2 - 0x80)) :: ·)
        else none
      | _ => none
    else if 0xF0 ≤ b && b ≤ 0xF4 then
      match rest with
      | c1 :: c2 :: c3 :: rest3 =>
        let lo1 : Nat := if b == 0xF0 then 0x90 else 0x80
        let hi1 : Nat := if b == 0xF4 then 0x8F else 0xBF
        if lo1 ≤ c1 && c1 ≤ hi1 && isCont c2 && isCont c3 then
          (utf8DecodeList rest3).map
            (Char.ofNat ((b - 0xF0) * 0x40000 + (c1 - 0x80) * 0x1000 +
              (c2 - 0x80) * 0x40 + (c3 - 0x80)) :: ·)
        else none
      | _ => none
    else none

/-- Embedding of Rust String::from_utf8 on a chunk of bytes: some decoded
string, or none when the chunk is not valid UTF-8. -/
def fromUtf8 (chunk : List Nat) : Option String :=
  (utf8DecodeList chunk).map String.mk

/-- Standard UTF-8 encoding of one character, used to build concrete byte
chunks for the scenarios. -/
def utf8EncodeChar (c : Char) : List Nat :=
  let n := c.toNat
  if n ≤ 0x7F then [n]
  else if n ≤ 0x7FF then [0xC0 + n / 0x40, 0x80 + n % 0x40]
  else if n ≤ 0xFFFF then
    [0xE0 + n / 0x1000, 0x80 + (n / 0x40) % 0x40, 0x80 + n % 0x40]
  else
    [0xF0 + n / 0x40000, 0x80 + (n / 0x1000) % 0x40,
     0x80 + (n / 0x40) % 0x40, 0x80 + n % 0x40]

/-- Byte encoding of a whole string. -/
def strBytes (s : String) : List Nat :=
  s.toList.flatMap utf8EncodeChar

/-- JSON values. Numbers keep their source lexeme: no claim depends on
numeric values and the client never reads one. -/
inductive Json where
  | null : Json
  | boolean : Bool → Json
  | num : String → Json
  | str : String → Json
  | arr : List Json → Json
  | obj : List (String × Json) → Json

/-- JSON insignificant whitespace (RFC 8259): space, tab, line feed,
carriage return. -/
def jsonWs (c : Char) : Bool :=
  c == ' ' || c == '\t' || c == '\n' || c == '\r'

/-- Skip insignificant whitespace. -/
def skipWs (l : List Char) : List Char :=
  l.dropWhile jsonWs

/-- Value of one hex digit by code point, or none. -/
def hexVal (c : Char) : Option Nat :=
  let n := c.toNat
  if 48 ≤ n && n ≤ 57 then some (n - 48)
  else if 97 ≤ n && n ≤ 102 then some (n - 87)
  else if 65 ≤ n && n ≤ 70 then some (n - 55)
  else none

/-- Parse exactly four hex digits. -/
def parseHex4 : List Char → Option (Nat × List Char)
  | h1 :: h2 :: h3 :: h4 :: rest =>
    match hexVal h1, hexVal h2, hexVal h3, hexVal h4 with
    | some v1, some v2, some v3, some v4 =>
      some (v1 * 4096 + v2 * 256 + v3 * 16 + v4, rest)
    | _, _, _, _ => none
  | _ => none

/-- Parse the body of a JSON string after the opening quote, up to and
including the closing quote. Mirrors serde_json: raw control characters
are rejected, the escapes are the eight short ones plus \u, and \u
surrogate pairs are combined while lone surrogates are rejected. -/
def parseStringBody : List Char → Option (List Char × List Char)
  | [] => none
  | '"' :: rest => some ([], rest)
  | '\\' :: esc =>
    match esc with
    | '"' :: rest => (parseStringBody rest).map (fun (s, r) => ('"' :: s, r))
    | '\\' :: rest => (parseStringBody rest).map (fun (s, r) => ('\\' :: s, r))
    | '/' :: rest => (parseStringBody rest).map (fun (s, r) => ('/' :: s, r))
    | 'b' :: rest => (parseStringBody rest).map (fun (s, r) => (Char.ofNat 8 :: s, r))
    | 'f' :: rest => (parseStringBody rest).map (fun (s, r) => (Char.ofNat 12 :: s, r))
    | 'n' :: rest => (parseStringBody rest).map (fun (s, r) => ('\n' :: s, r))
    | 'r' :: rest => (parseStringBody rest).map (fun (s, r) => ('\r' :: s, r))
    | 't' :: rest => (parseStringBody rest).map (fun (s, r) => ('\t' :: s, r))
    | 'u' :: h1 :: h2 :: h3 :: h4 :: rest =>
      match parseHex4 (h1 :: h2 :: h3 :: h4 :: []) with
      | none => none
      | some (n, _) =>
        if 0xD800 ≤ n && n ≤ 0xDBFF then
          match rest with
          | '\\' :: 'u' :: g1 :: g2 :: g3 :: g4 :: rest2 =>
            match parseHex4 (g1 :: g2 :: g3 :: g4 :: []) with
            | none => none
            | some (m, _) =>
              if 0xDC00 ≤ m && m ≤ 0xDFFF then
                (parseStringBody rest2).map (fun (s, r) =>
                  (Char.ofNat (0x10000 + (n - 0xD800) * 0x400 + (m - 0xDC00)) :: s, r))
              else none
          | _ => none
        else if 0xDC00 ≤ n && n ≤ 0xDFFF then none
        else (parseStringBody rest).map (fun (s, r) => (Char.ofNat n :: s, r))
    | _ => none
  | c :: rest =>
    if c.toNat < 0x20 then none
    else (parseStringBody rest).map (fun (s, r) => (c :: s, r))

/-- Digit test for JSON numbers, by code point. -/
def isDigitCh (c : Char) : Bool :=
  48 ≤ c.toNat && c.toNat ≤ 57

/-- Parse the integer part of a JSON number after an optional sign:
either a single 0 or a nonzero digit followed by digits. -/
def parseIntPart (l : List Char) : Option (List Char × List Char)
  := match l with
  | '0' :: rest => some (['0'], rest)
  | c :: rest =>
    if isDigitCh c then
      some (c :: rest.takeWhile isDigitCh, rest.dropWhile isDigitCh)
    else none
  | [] => none

/-- Parse an optional fraction part (dot followed by one or more digits). -/
def parseFracPart (l : List Char) : Option (List Char × List Char)
  := match l with
  | '.' :: rest =>
    match rest.takeWhile isDigitCh with
    | [] => none
    | ds => some ('.' :: ds, rest.dropWhile isDigitCh)
  | _ => some ([], l)

/-- Parse an optional exponent part. -/
def parseExpPart (l : List Char) : Option (List Char × List Char)
  := match l with
  | e :: rest =>
    if e == 'e' || e == 'E' then
      let (sign, rest1) := match rest with
        | '+' :: r => (['+'], r)
        | '-' :: r => (['-'], r)
        | r => (([] : List Char), r)
      match rest1.takeWhile isDigitCh with
      | [] => none
      | ds => some (e :: (sign ++ ds), rest1.dropWhile isDigitCh)
    else some ([], e :: rest)
  | [] => some ([], [])

/-- Parse a JSON number, returning its lexeme. -/
def parseNumber (l : List Char) : Option (String × List Char) := do
  let (sign, l1) := match l with
    | '-' :: r => (['-'], r)
    | r => (([] : List Char), r)
  let (ip, l2) ← parseIntPart l1
  let (fp, l3) ← parseFracPart l2
  let (ep, l4) ← parseExpPart l3
  some (String.mk (sign ++ ip ++ fp ++ ep), l4)

/-- Opening curly brace character, written via its code point. -/
def lbrace : Char := Char.ofNat 0x7B

/-- Closing curly brace character, written via its code point. -/
def rbrace : Char := Char.ofNat 0x7D

mutual

/-- Fuel-based recursive-descent parser for one JSON value, mirroring the
grammar accepted by serde_json. The second argument is the remaining
recursion depth: entering an array or an object decrements it and fails
when it reaches zero, as the check_recursion macro of serde_json does
with its default budget of 128. -/
def parseValue : Nat → Nat → List Char → Option (Json × List Char)
  | 0, _, _ => none
  | fuel + 1, depth, l =>
    match skipWs l with
    | [] => none
    | 'n' :: 'u' :: 'l' :: 'l' :: rest => some (Json.null, rest)
    | 't' :: 'r' :: 'u' :: 'e' :: rest => some (Json.boolean true, rest)
    | 'f' :: 'a' :: 'l' :: 's' :: 'e' :: rest => some (Json.boolean false, rest)
    | '"' :: rest =>
      (parseStringBody rest).map (fun (s, r) => (Json.str (String.mk s), r))
    | '[' :: rest =>
      if depth - 1 == 0 then none
      else (parseArrayRest fuel (depth - 1) rest).map (fun (xs, r) => (Json.arr xs, r))
    | c :: rest =>
      if c == lbrace then
        if depth - 1 == 0 then none
        else (parseObjRest fuel (depth - 1) rest).map (fun (fs, r) => (Json.obj fs, r))
      else if c == '-' || isDigitCh c then
        (parseNumber (c :: rest)).map (fun (s, r) => (Json.num s, r))
      else none
termination_by structural fuel _ _ => fuel

/-- Parse the elements of an array, positioned just after the opening
bracket. -/
def parseArrayRest : Nat → Nat → List Char → Option (List Json × List Char)
  | 0, _, _ => none
  | fuel + 1, depth, l =>
    match skipWs l with
    | ']' :: rest => some ([], rest)
    | l1 =>
      match parseValue fuel depth l1 with
      | none => none
      | some (v, r) =>
        match parseArrayMore fuel depth r with
        | none => none
        | some (vs, r2) => some (v :: vs, r2)
termination_by structural fuel _ _ => fuel

/-- Parse the continuation of an array after one element: a comma and a
further element, or the closing bracket. -/
def parseArrayMore : Nat → Nat → List Char → Option (List Json × List Char)
  | 0, _, _ => none
  | fuel + 1, depth, l =>
    match skipWs l with
    | ']' :: rest => some ([], rest)
    | ',' :: rest =>
      match parseValue fuel depth rest with
      | none => none
      | some (v, r) =>
        match parseArrayMore fuel depth r with
        | none => none
        | some (vs, r2) => some (v :: vs, r2)
    | _ => none
termination_by structural fuel _ _ => fuel

/-- Parse the members of an object, positioned just after the opening
brace. -/
def parseObjRest : Nat → Nat → List Char → Option (List (String × Json) × List Char)
  | 0, _, _ => none
  | fuel + 1, depth, l =>
    match skipWs l with
    | [] => none
    | c :: rest =>
      if c == rbrace then some ([], rest)
      else if c == '"' then parseMember fuel depth rest
      else none
termination_by structural fuel _ _ => fuel

/-- Parse one object member whose key string is already open, then the
continuation of the object. -/
def parseMember : Nat → Nat → List Char → Option (List (String × Json) × List Char)
  | 0, _, _ => none
  | fuel + 1, depth, l =>
    match parseStringBody l with
    | none => none
    | some (k, r) =>
      match skipWs r with
      | ':' :: r1 =>
        match parseValue fuel depth r1 with
        | none => none
        | some (v, r2) =>
          match parseObjMore fuel depth r2 with
          | none => none
          | some (fs, r3) => some ((String.mk k, v) :: fs, r3)
      | _ => none
termination_by structural fuel _ _ => fuel

/-- Parse the continuation of an object after one member: a comma and a
further member, or the closing brace. -/
def parseObjMore : Nat → Nat → List Char → Option (List (String × Json) × List Char)
  | 0, _, _ => none
  | fuel + 1, depth, l =>
    match skipWs l with
    | [] => none
    | c :: rest =>
      if c == rbrace then some ([], rest)
      else if c == ',' then
        match skipWs rest with
        | q :: r1 =>
          if q == '"' then parseMember fuel depth r1 else none
        | [] => none
      else none
termination_by structural fuel _ _ => fuel

end

/-- Default recursion budget of serde_json: remaining_depth starts at
128, is decremented on entering every array or object, and the document
is rejected when it reaches zero, so at most 127 nested composites are
accepted. -/
def serdeRecursionBudget : Nat := 128

/-- Parse a complete JSON document: one value with only whitespace around
it, as serde_json::from_str requires (trailing characters are an error),
under the default recursion budget. -/
def jsonFromStr (s : String) : Option Json :=
  let cs := s.toList
  match parseValue (cs.length + 1) serdeRecursionBudget cs with
  | none => none
  | some (v, rest) =>
    match skipWs rest with
    | [] => some v
    | _ => none

/-- Rust struct ResponsePart: an optional text field. -/
structure ResponsePart where
  text : Option String
deriving DecidableEq, Repr

/-- Rust struct ResponseContent: an optional list of parts. -/
structure ResponseContent where
  parts : Option (List ResponsePart)
deriving DecidableEq, Repr

/-- Rust struct Candidate: optional content and an optional finish reason
(renamed from the JSON field finishReason). -/
structure Candidate where
  content : Option ResponseContent
  finish_reason : Option String
deriving DecidableEq, Repr

/-- Rust struct GenerateContentResponse: an optional list of candidates. -/
structure GenerateContentResponse where
  candidates : Option (List Candidate)
deriving DecidableEq, Repr

/-- Look up a declared field in a decoded object, mirroring the serde
derive: none signals a duplicate-field error, some none an absent field,
some (some v) the field value. -/
def getField (fields : List (String × Json)) (name : String) :
    Option (Option Json) :=
  match fields.filter (fun kv => kv.1 == name) with
  | [] => some none
  | [kv] => some (some kv.2)
  | _ => none

/-- Decode an optional field through a decoder for the inner type: an
absent field and JSON null both give none, as serde does for Option. -/
def decodeOptWith (dec : Json → Option α) : Option Json → Option (Option α)
  | none => some none
  | some Json.null => some none
  | some j => (dec j).map some

/-- Decode a JSON string. -/
def decodeString : Json → Option String
  | Json.str s => some s
  | _ => none

/-- Decode a JSON array elementwise. -/
def decodeListWith (dec : Json → Option α) : Json → Option (List α)
  | Json.arr xs => xs.mapM dec
  | _ => none

/-- Serde-derived decoder for ResponsePart: a map keyed by field name, or
the seq form (visit_seq) as an array holding the fields in declaration
order, here exactly one element for text. -/
def decodeResponsePart (j : Json) : Option ResponsePart :=
  match j with
  | Json.obj fields => do
    let f ← getField fields "text"
    let t ← decodeOptWith decodeString f
    some ⟨t⟩
  | Json.arr [e] => do
    let t ← decodeOptWith decodeString (some e)
    some ⟨t⟩
  | _ => none

/-- Serde-derived decoder for ResponseContent, accepting the map form and
the one-element seq form. -/
def decodeResponseContent (j : Json) : Option ResponseContent :=
  match j with
  | Json.obj fields => do
    let f ← getField fields "parts"
    let ps ← decodeOptWith (decodeListWith decodeResponsePart) f
    some ⟨ps⟩
  | Json.arr [e] => do
    let ps ← decodeOptWith (decodeListWith decodeResponsePart) (some e)
    some ⟨ps⟩
  | _ => none

/-- Serde-derived decoder for Candidate; the finish_reason field reads
the JSON key finishReason in the map form, while the seq form takes
exactly the two fields in declaration order. -/
def decodeCandidate (j : Json) : Option Candidate :=
  match j with
  | Json.obj fields => do
    let fc ← getField fields "content"
    let c ← decodeOptWith decodeResponseContent fc
    let fr ← getField fields "finishReason"
    let r ← decodeOptWith decodeString fr
    some ⟨c, r⟩
  | Json.arr [e1, e2] => do
    let c ← decodeOptWith decodeResponseContent (some e1)
    let r ← decodeOptWith decodeString (some e2)
    some ⟨c, r⟩
  | _ => none

/-- Serde-derived decoder for GenerateContentResponse, accepting the map
form and the one-element seq form. -/
def decodeGenerateContentResponse (j : Json) : Option GenerateContentResponse :=
  match j with
  | Json.obj fields => do
    let fc ← getField fields "candidates"
    let cs ← decodeOptWith (decodeListWith decodeCandidate) fc
    some ⟨cs⟩
  | Json.arr [e] => do
    let cs ← decodeOptWith (decodeListWith decodeCandidate) (some e)
    some ⟨cs⟩
  | _ => none

/-- Embedding of serde_json::from_str::<GenerateContentResponse>. -/
def fromStrResponse (s : String) : Option GenerateContentResponse :=
  (jsonFromStr s).bind decodeGenerateContentResponse

/-- Append the text of one part to the output buffer, when present
(lib.rs lines 142-146). -/
def appendPart (acc : String) (p : ResponsePart) : String :=
  match p.text with
  | some t => acc ++ t
  | none => acc

/-- Append the text of every part of one candidate to the output buffer
(lib.rs lines 139-149). -/
def appendCandidate (acc : String) (c : Candidate) : String :=
  match c.content with
  | some content =>
    match content.parts with
    | some parts => parts.foldl appendPart acc
    | none => acc
  | none => acc

/-- Append all extracted text of one parsed response to the output buffer
(lib.rs lines 138-150). -/
def extractResponse (acc : String) (r : GenerateContentResponse) : String :=
  match r.candidates with
  | some cs => cs.foldl appendCandidate acc
  | none => acc

/-- Process one byte chunk against the output buffer, mirroring one
iteration of the while loop (lib.rs lines 113-153): UTF-8 decode, clean,
skip if empty, parse, extract on success, otherwise leave the buffer
unchanged. -/
def processChunk (acc : String) (chunk : List Nat) : String :=
  match fromUtf8 chunk with
  | none => acc
  | some text =>
    let clean_text := cleanText text
    if clean_text.isEmpty then acc
    else
      match fromStrResponse clean_text with
      | none => acc
      | some parsed => extractResponse acc parsed

/-- Process a whole stream of chunks starting from a given buffer. -/
def processChunks (chunks : List (List Nat)) (acc : String) : String :=
  chunks.foldl processChunk acc

/-- Text contributed by a single chunk on its own. -/
def chunkText (chunk : List Nat) : String :=
  processChunk "" chunk

/-- Parsed response of a chunk when its cleaned fragment parses
successfully: none for a UTF-8 failure, an empty cleaned fragment, or a
JSON parse failure. -/
def parsedOf (chunk : List Nat) : Option GenerateContentResponse :=
  match fromUtf8 chunk with
  | none => none
  | some text =>
    let clean_text := cleanText text
    if clean_text.isEmpty then none
    else fromStrResponse clean_text

/-- Rust struct Part of the request body. -/
structure Part where
  text : String
deriving DecidableEq, Repr

/-- Rust struct Content of the request body. -/
structure Content where
  role : String
  parts : List Part
deriving DecidableEq, Repr

/-- Rust struct GenerateContentRequest. -/
structure GenerateContentRequest where
  contents : List Content
deriving DecidableEq, Repr

/-- Hex digit character used by the serializer for control-character
escapes, lowercase as in serde_json. -/
def hexDigitCh (n : Nat) : Char :=
  if n < 10 then Char.ofNat (48 + n) else Char.ofNat (97 + n - 10)

/-- Escape one character as serde_json does when writing a JSON string:
quote and backslash get a backslash escape, control characters get the
short escapes or a \u00XX escape, and everything else is unchanged. -/
def escapeJsonChar (c : Char) : List Char :=
  if c == '"' then ['\\', '"']
  else if c == '\\' then ['\\', '\\']
  else if c.toNat < 0x20 then
    match c.toNat with
    | 8 => ['\\', 'b']
    | 9 => ['\\', 't']
    | 10 => ['\\', 'n']
    | 12 => ['\\', 'f']
    | 13 => ['\\', 'r']
    | n => ['\\', 'u', '0', '0', hexDigitCh (n / 16), hexDigitCh (n % 16)]
  else [c]

/-- Escape a whole string for inclusion in serialized JSON. -/
def escapeJsonString (s : String) : String :=
  String.mk (s.toList.flatMap escapeJsonChar)

/-- Serialize a string as a JSON string literal. -/
def serializeStr (s : String) : String :=
  "\"" ++ escapeJsonString s ++ "\""

/-- Serde-derived serializer for Part. -/
def serializePart (p : Part) : String :=
  "\x7b\"text\":" ++ serializeStr p.text ++ "\x7d"

/-- Serde-derived serializer for Content: fields in declaration order. -/
def serializeContent (c : Content) : String :=
  "\x7b\"role\":" ++ serializeStr c.role ++ ",\"parts\":[" ++
    String.intercalate "," (c.parts.map serializePart) ++ "]\x7d"

/-- Serde-derived serializer for GenerateContentRequest. -/
def serializeRequest (r : GenerateContentRequest) : String :=
  "\x7b\"contents\":[" ++
    String.intercalate "," (r.contents.map serializeContent) ++ "]\x7d"

/-- Request body value built by generate_content (lib.rs lines 87-94). -/
def mkRequestBody (prompt : String) : GenerateContentRequest :=
  ⟨[⟨"user", [⟨prompt⟩]⟩]⟩

/-- Fixed streaming endpoint URL (lib.rs line 60). -/
def GEMINI_API_URL : String :=
  "https://generativelanguage.googleapis.com/v1beta/models/gemini-flash-latest:streamGenerateContent"

/-- Outbound HTTP request: the URL with the key query parameter, and the
serialized JSON body. -/
structure HttpRequest where
  url : String
  body : String
deriving DecidableEq, Repr

/-- Upstream HTTP response: a status code, a body (read only on error),
and a stream of byte chunks. -/
structure HttpResponse where
  status : Nat
  body : String
  chunks : List (List Nat)
deriving DecidableEq, Repr

/-- Errors returned by the generate_content model: the env::var failure
propagated by the question-mark operator, and the formatted
request-failed error carrying status and body. -/
inductive GenError where
  | envVar : GenError
  | upstream : Nat → String → GenError
deriving DecidableEq, Repr

/-- Success statuses, as reqwest StatusCode::is_success: 200 to 299. -/
def statusIsSuccess (s : Nat) : Bool :=
  200 ≤ s && s ≤ 299

/-- Embedding of generate_content (lib.rs lines 70-156). The environment
variable GEMINI_API_KEY is an explicit optional parameter, and the
network is a function from the constructed request to a response. -/
def generate_content (prompt : String) (api_key_opt : Option String)
    (envApiKey : Option String) (net : HttpRequest → HttpResponse) :
    Except GenError String :=
  match (match api_key_opt with
         | some k => some k
         | none => envApiKey) with
  | none => .error .envVar
  | some api_key =>
    let request_body := mkRequestBody prompt
    let url := GEMINI_API_URL ++ "?key=" ++ api_key
    let response := net ⟨url, serializeRequest request_body⟩
    if !(statusIsSuccess response.status) then
      .error (.upstream response.status response.body)
    else
      .ok (processChunks response.chunks "")

/-- Request value that generate_content sends for a given prompt and
resolved key. -/
def requestOf (prompt apiKey : String) : HttpRequest :=
  ⟨GEMINI_API_URL ++ "?key=" ++ apiKey, serializeRequest (mkRequestBody prompt)⟩

/-- Removal of every leading occurrence of a character, written as plain
recursion; spec-side formulation for the amended claim C2. -/
def stripAllPrefix (c : Char) : List Char → List Char
  | [] => []
  | x :: xs => if x == c then stripAllPrefix c xs else x :: xs

/-- Removal of every trailing occurrence of a character. -/
def stripAllSuffix (c : Char) (l : List Char) : List Char :=
  (stripAllPrefix c l.reverse).reverse

/-- Amended cleaning contract: trim whitespace, strip ALL leading
brackets, then all leading commas, then all trailing brackets, then all
trailing commas, then trim whitespace again. -/
def specCleanAllText (s : String) : String :=
  String.mk (trimEndList (trimStartList
    (stripAllSuffix ','
      (stripAllSuffix ']'
        (stripAllPrefix ','
          (stripAllPrefix '[' (trimEndList (trimStartList s.toList))))))))

/-- First streamed object of the end-to-end scenario, carrying the text
Hel and a trailing array comma. -/
def chunkHel : List Nat :=
  strBytes "\x7b\"candidates\":[\x7b\"content\":\x7b\"parts\":[\x7b\"text\":\"Hel\"\x7d]\x7d\x7d]\x7d,"

/-- Second streamed object of the end-to-end scenario, carrying the text
lo. -/
def chunkLo : List Nat :=
  strBytes "\x7b\"candidates\":[\x7b\"content\":\x7b\"parts\":[\x7b\"text\":\"lo\"\x7d]\x7d\x7d]\x7d"

/-- The four chunks of the end-to-end scenario. -/
def scenarioChunks : List (List Nat) :=
  [strBytes "[", chunkHel, chunkLo, strBytes "]"]

/-- Network returning the end-to-end scenario stream with a success
status. -/
def scenarioNet : HttpRequest → HttpResponse :=
  fun _ => ⟨200, "", scenarioChunks⟩

/-- Chunk whose cleaned fragment is the seq form of the response struct:
the comma strips run after the bracket strips, so the doubled brackets
survive cleaning and serde deserializes the struct from the array. -/
def seqFormChunk : List Nat :=
  strBytes ",[[\x7b\"content\":\x7b\"parts\":[\x7b\"text\":\"X\"\x7d]\x7d\x7d]],,"

/-- Chunk that is a well-formed response object except for an ignored
extra field nested 130 arrays deep, beyond the serde recursion budget. -/
def deepIgnoredChunk : List Nat :=
  strBytes
    ("\x7b\"candidates\":[\x7b\"content\":\x7b\"parts\":[\x7b\"text\":\"X\"\x7d]\x7d\x7d],\"z\":" ++
      String.mk (List.replicate 130 '[' ++ List.replicate 130 ']') ++ "\x7d")

/-- First half of a JSON object split across two network deliveries. -/
def splitHalfA : List Nat :=
  strBytes "\x7b\"candidates\":[\x7b\"content\":"

/-- Second half of a JSON object split across two network deliveries. -/
def splitHalfB : List Nat :=
  strBytes "\x7b\"parts\":[\x7b\"text\":\"X\"\x7d]\x7d\x7d]\x7d"

/-- Folding a buffer-appending step from any initial buffer is the
initial buffer followed by the fold from the empty buffer. -/
theorem foldl_shift (f : String → α → String)
    (hf : ∀ acc x, f acc x = acc ++ f "" x) (l : List α) :
    ∀ acc : String, l.foldl f acc = acc ++ l.foldl f "" := by
  induction l with
  | nil => intro acc; simp [String.append_empty]
  | cons x xs ih =>
    intro acc
    show xs.foldl f (f acc x) = acc ++ xs.foldl f (f "" x)
    rw [ih (f acc x), ih (f "" x), hf acc x, String.append_assoc]

/-- Unfolding lemma for String.join on a cons cell. -/
theorem join_cons (a : String) (l : List String) :
    String.join (a :: l) = a ++ String.join l := by
  show l.foldl (· ++ ·) ("" ++ a) = a ++ l.foldl (· ++ ·) ""
  rw [String.empty_append,
    foldl_shift (· ++ ·)
      (fun acc x => by show acc ++ x = acc ++ ("" ++ x); rw [String.empty_append]) l a]

/-- Appending one part shifts over the buffer. -/
theorem appendPart_shift (acc : String) (p : ResponsePart) :
    appendPart acc p = acc ++ appendPart "" p := by
  cases h : p.text <;>
    simp [appendPart, h, String.append_empty, String.empty_append]

/-- Appending one candidate shifts over the buffer. -/
theorem appendCandidate_shift (acc : String) (c : Candidate) :
    appendCandidate acc c = acc ++ appendCandidate "" c := by
  cases h : c.content with
  | none => simp [appendCandidate, h, String.append_empty]
  | some content =>
    cases h2 : content.parts with
    | none => simp [appendCandidate, h, h2, String.append_empty]
    | some ps =>
      simp only [appendCandidate, h, h2]
      exact foldl_shift appendPart appendPart_shift ps acc

/-- Extraction shifts over the buffer. -/
theorem extractResponse_shift (acc : String) (r : GenerateContentResponse) :
    extractResponse acc r = acc ++ extractResponse "" r := by
  cases h : r.candidates with
  | none => simp [extractResponse, h, String.append_empty]
  | some cs =>
    simp only [extractResponse, h]
    exact foldl_shift appendCandidate appendCandidate_shift cs acc

/-- Processing one chunk appends exactly that chunk's own text. -/
theorem processChunk_shift (acc : String) (chunk : List Nat) :
    processChunk acc chunk = acc ++ chunkText chunk := by
  unfold chunkText processChunk
  cases h : fromUtf8 chunk with
  | none => rw [String.append_empty]
  | some text =>
    by_cases he : (cleanText text).isEmpty
    · simp only [he, if_pos, String.append_empty]
    · simp only [he, if_neg, Bool.false_eq_true, ite_false]
      cases hp : fromStrResponse (cleanText text) with
      | none => rw [String.append_empty]
      | some parsed =>
        show extractResponse acc parsed = acc ++ extractResponse "" parsed
        exact extractResponse_shift acc parsed

/-- Text of one chunk through its parse result: the extraction of the
parsed response, or empty when the chunk was skipped. -/
theorem chunkText_eq (chunk : List Nat) :
    chunkText chunk = ((parsedOf chunk).map (extractResponse "")).getD "" := by
  unfold chunkText processChunk parsedOf
  cases h : fromUtf8 chunk with
  | none => rfl
  | some text =>
    by_cases he : (cleanText text).isEmpty
    · have h2 : cleanText text = "" := (String.isEmpty_iff _).1 he
      simp only [he, h2, if_pos]; rfl
    · have h2 : ¬ cleanText text = "" := fun hx => he ((String.isEmpty_iff _).2 hx)
      simp only [he, h2, if_neg, Bool.false_eq_true, ite_false]
      cases hp : fromStrResponse (cleanText text) <;> rfl

/-- Text of a skipped chunk is empty. -/
theorem chunkText_of_skip (chunk : List Nat) (h : parsedOf chunk = none) :
    chunkText chunk = "" := by
  rw [chunkText_eq, h]; rfl

/-- Processing a stream from any buffer is the buffer followed by the
stream text. -/
theorem processChunks_shift (l : List (List Nat)) (acc : String) :
    processChunks l acc = acc ++ processChunks l "" :=
  foldl_shift processChunk processChunk_shift l acc

/-- Stream text is the join of every chunk's own text                    . -/
theorem processChunks_eq_join (l : List (List Nat)) :
    processChunks l "" = String.join (l.map chunkText) := by
  induction l with
  | nil => rfl
  | cons c l ih =>
    show processChunks l (processChunk "" c) = _
    rw [processChunks_shift, processChunk_shift, String.empty_append, ih,
      List.map_cons, join_cons]

/-- Recursion form of dropWhile for a fixed character. -/
theorem stripAllPrefix_eq_dropWhile (c : Char) (l : List Char) :
    stripAllPrefix c l = l.dropWhile (· == c) := by
  induction l with
  | nil => rfl
  | cons x xs ih =>
    by_cases h : x == c <;> simp [stripAllPrefix, List.dropWhile, h, ih]

/-- Chunks that fail to decode are skipped. -/
theorem parsedOf_of_decode_fail (c : List Nat) (h : fromUtf8 c = none) :
    parsedOf c = none := by
  unfold parsedOf; rw [h]

/-- Serde accepts the seq form of a derived struct: a chunk cleaning to a
doubled-bracket array around a candidate contributes its text. -/
theorem seq_form_struct_accepted : chunkText seqFormChunk = "X" := by decide

set_option maxRecDepth 16384 in
/-- The embedded parser enforces the serde recursion budget: 127 nested
composites are accepted, 128 are rejected, and a response object whose
ignored extra field nests 130 deep is dropped whole. -/
theorem recursion_limit_matches_serde :
    (jsonFromStr (String.mk (List.replicate 127 '[' ++ List.replicate 127 ']'))).isSome = true ∧
    (jsonFromStr (String.mk (List.replicate 128 '[' ++ List.replicate 128 ']'))).isSome = false ∧
    parsedOf deepIgnoredChunk = none := by decide

/-- C10: chunk processing carries no state between chunks other than the
output buffer: the text produced from a concatenated chunk sequence is
the concatenation of the texts produced from each part alone. -/
theorem processChunks_monoid_hom (s t : List (List Nat)) :
    processChunks (s ++ t) "" = processChunks s "" ++ processChunks t "" := by
  show List.foldl processChunk "" (s ++ t) = _
  rw [List.foldl_append]
  exact processChunks_shift t (processChunks s "")

/-- C6: an invalid UTF-8 chunk between two valid well-formed chunks
contributes nothing, and the two valid chunks' text is concatenated
exactly as if the invalid chunk were absent. -/
theorem invalid_utf8_chunk_skipped (v1 bad v2 : List Nat)
    (hbad : fromUtf8 bad = none)
    (_hv1 : parsedOf v1 ≠ none) (_hv2 : parsedOf v2 ≠ none) :
    chunkText bad = "" ∧
    processChunks [v1, bad, v2] "" = processChunks [v1, v2] "" ∧
    processChunks [v1, v2] "" = chunkText v1 ++ chunkText v2 := by
  have hskip : chunkText bad = "" :=
    chunkText_of_skip bad (parsedOf_of_decode_fail bad hbad)
  refine ⟨hskip, ?_, ?_⟩
  · rw [processChunks_eq_join, processChunks_eq_join]
    simp only [List.map_cons, List.map_nil, hskip, join_cons]
    rw [String.empty_append]
  · rw [processChunks_eq_join]
    simp only [List.map_cons, List.map_nil, join_cons]
    rw [show String.join [] = "" from rfl, String.append_empty]

/-- Witness for C6: a lone 0xFF byte between the two scenario chunks
changes nothing. -/
theorem invalid_utf8_chunk_skipped_witness :
    processChunks [chunkHel, [255], chunkLo] "" = processChunks [chunkHel, chunkLo] "" :=
  (invalid_utf8_chunk_skipped chunkHel [255] chunkLo (by decide) (by decide)
    (by decide)).2.1

/-- C7: a chunk that is exactly a bracket or a comma after whitespace
trimming cleans to the empty fragment and appends nothing to the output
buffer. -/
theorem punctuation_chunk_skipped (chunk : List Nat) (s : String) (acc : String)
    (hdec : fromUtf8 chunk = some s)
    (h : rustTrim s = "[" ∨ rustTrim s = "]" ∨ rustTrim s = ",") :
    cleanText s = "" ∧ processChunk acc chunk = acc := by
  have hclean : cleanText s = "" := by
    unfold cleanText
    rcases h with h | h | h <;> rw [h] <;> decide
  refine ⟨hclean, ?_⟩
  unfold processChunk
  rw [hdec]
  simp only [hclean]
  rfl

/-- Witness for C7 on a whitespace-padded closing bracket. -/
theorem punctuation_chunk_skipped_witness :
    processChunk "abc" (strBytes " ] ") = "abc" :=
  (punctuation_chunk_skipped (strBytes " ] ") " ] " "abc" (by decide)
    (Or.inr (Or.inl (by decide)))).2

/-- C8: a JSON object split across two network deliveries fails to parse
in both halves after cleaning, so it contributes nothing to the output. -/
theorem split_object_dropped :
    parsedOf splitHalfA = none ∧ parsedOf splitHalfB = none ∧
    processChunks [splitHalfA, splitHalfB] "" = "" := by decide

/-- C2 counterexample: on the input consisting of two opening brackets
the code strips both brackets and cleans to the empty string, while the
at-most-one-strip contract of the claim leaves one bracket. -/
theorem clean_at_most_one_counterexample :
    cleanText "[[" ≠ specCleanText "[[" ∧
    cleanText "[[" = "" ∧ specCleanText "[[" = "[" := by decide

/-- C2 amended: the cleaning step trims whitespace, strips ALL leading
brackets, then all leading commas, then all trailing brackets, then all
trailing commas, then trims whitespace again. -/
theorem clean_strips_all_occurrences (s : String) :
    cleanText s = specCleanAllText s := by
  unfold cleanText specCleanAllText rustTrim trimStartMatches trimEndMatches
  rw [stripAllPrefix_eq_dropWhile, stripAllPrefix_eq_dropWhile]
  unfold stripAllSuffix
  rw [stripAllPrefix_eq_dropWhile, stripAllPrefix_eq_dropWhile]
  rfl

/-- Witness for C2 amended on a concrete chunk with doubled array
punctuation. -/
theorem clean_strips_all_occurrences_witness :
    cleanText "[[,x],]" = specCleanAllText "[[,x],]" :=
  clean_strips_all_occurrences "[[,x],]"

/-- C4: when the upstream response status is not a success status, the
call returns the upstream error carrying the status and body, whatever
the stream chunks are, and no extracted text. -/
theorem upstream_error_surfaced (prompt key : String) (ko env : Option String)
    (hres : (match ko with | some k => some k | none => env) = some key)
    (net : HttpRequest → HttpResponse) (resp : HttpResponse)
    (hnet : net (requestOf prompt key) = resp)
    (hbad : statusIsSuccess resp.status = false) :
    generate_content prompt ko env net = .error (.upstream resp.status resp.body) := by
  unfold generate_content
  rw [hres]
  have hnet2 : net ⟨GEMINI_API_URL ++ "?key=" ++ key,
      serializeRequest (mkRequestBody prompt)⟩ = resp := hnet
  simp only [hnet2, hbad]
  rfl

/-- Witness for C4: a 401 response with a body and a nonempty stream
yields exactly the upstream error. -/
theorem upstream_error_surfaced_witness :
    generate_content "p" (some "k") none
      (fun _ => ⟨401, "unauthorized", scenarioChunks⟩) =
      .error (.upstream 401 "unauthorized") :=
  upstream_error_surfaced "p" "k" (some "k") none rfl
    (fun _ => ⟨401, "unauthorized", scenarioChunks⟩)
    ⟨401, "unauthorized", scenarioChunks⟩ rfl (by decide)

/-- C5: with no explicit key and no environment variable the call is a
configuration error independent of the network; with an explicit key the
environment is not consulted, the call is never a configuration error,
and the response to the request built from that key decides the result. -/
theorem credential_resolution (prompt k : String) (env : Option String)
    (net net' : HttpRequest → HttpResponse) :
    generate_content prompt none none net = .error .envVar ∧
    generate_content prompt none none net = generate_content prompt none none net' ∧
    generate_content prompt (some k) env net = generate_content prompt (some k) none net ∧
    generate_content prompt (some k) env net ≠ .error .envVar ∧
    generate_content prompt (some k) env net =
      (if !(statusIsSuccess (net (requestOf prompt k)).status) then
        .error (.upstream (net (requestOf prompt k)).status (net (requestOf prompt k)).body)
      else
        .ok (processChunks (net (requestOf prompt k)).chunks "")) := by
  refine ⟨rfl, rfl, rfl, ?_, rfl⟩
  have h1 : generate_content prompt (some k) env net =
      (if !(statusIsSuccess (net (requestOf prompt k)).status) then
        (.error (.upstream (net (requestOf prompt k)).status
          (net (requestOf prompt k)).body) : Except GenError String)
      else .ok (processChunks (net (requestOf prompt k)).chunks "")) := rfl
  rw [h1]
  split <;> simp

/-- Intercalation of a single string is that string. -/
theorem intercalate_singleton (s a : String) : String.intercalate s [a] = a := rfl

/-- C9: the request generate_content sends carries exactly the JSON body
with the user role and the prompt as the single part text, at the fixed
endpoint URL with the key as query parameter, and the result depends on
the network only through its answer to that one request. -/
theorem request_shape (prompt key : String) (env : Option String)
    (net net' : HttpRequest → HttpResponse)
    (hsame : net (requestOf prompt key) = net' (requestOf prompt key)) :
    (requestOf prompt key).body =
      "\x7b\"contents\":[\x7b\"role\":\"user\",\"parts\":[\x7b\"text\":\"" ++
        escapeJsonString prompt ++ "\"\x7d]\x7d]\x7d" ∧
    (requestOf prompt key).url = GEMINI_API_URL ++ "?key=" ++ key ∧
    generate_content prompt (some key) env net =
      generate_content prompt (some key) env net' := by
  refine ⟨?_, rfl, ?_⟩
  · apply String.ext
    simp only [requestOf, serializeRequest, mkRequestBody, List.map_cons,
      List.map_nil, intercalate_singleton, serializeContent, serializePart,
      serializeStr, escapeJsonString, String.data_append, List.append_assoc]
    rfl
  · have h1 : generate_content prompt (some key) env net =
        (if !(statusIsSuccess (net (requestOf prompt key)).status) then
          .error (.upstream (net (requestOf prompt key)).status
            (net (requestOf prompt key)).body)
        else
          .ok (processChunks (net (requestOf prompt key)).chunks "")) := rfl
    have h2 : generate_content prompt (some key) env net' =
        (if !(statusIsSuccess (net' (requestOf prompt key)).status) then
          .error (.upstream (net' (requestOf prompt key)).status
            (net' (requestOf prompt key)).body)
        else
          .ok (processChunks (net' (requestOf prompt key)).chunks "")) := rfl
    rw [h1, h2, hsame]

/-- Witness for C9: the body sent for the prompt hi with key k. -/
theorem request_shape_witness :
    (requestOf "hi" "k").body =
      "\x7b\"contents\":[\x7b\"role\":\"user\",\"parts\":[\x7b\"text\":\"hi\"\x7d]\x7d]\x7d" :=
  (request_shape "hi" "k" none scenarioNet scenarioNet rfl).1.trans (by decide)

end GeminiClient
